import Mathlib

set_option maxRecDepth 8000

/-!
Shallow embedding of the BlackListValidator AngularJS service
(src/blacklist.js) and proofs about it.

Modelling decisions, each tied to a place in the source:

* A JS string is modelled as a list of characters (`Str`).  The code unit
  sequence seen by `charCodeAt` is recovered with `utf16Units` (surrogate
  pairs for characters beyond the BMP).

* `String.prototype.hashCode` (blacklist.js lines 49-58) is `hashCode`
  below.  JS bitwise operators work on 32-bit signed integers: `hash << 5`
  is ToInt32(hash * 32) and `hash = hash & hash` applies ToInt32 to the
  whole step; `toInt32` is that conversion on mathematical integers.

* The compiled regexes (lines 86, 96, 109, 110) are modelled by the list
  of fragments they were compiled from, with matching semantics
  `regMatches`: the JS pattern is `"(?:" + fragments.join("|") + ")"`
  with flag `"i"`, i.e. case-insensitive search for any fragment at any
  position, for fragments free of regex metacharacters.  When the
  fragment list is empty the joined pattern is `"(?:)"`, which matches
  every string (as does the initial `new RegExp("", "i")`, modelled as
  the empty fragment list as well): the `frags.isEmpty` branch of
  `regMatches` returns `true`.  The `"i"` flag is modelled by ASCII
  lowercasing via `Char.toLower`.

* The service state (module-local variables `blacklist`, `whitelist`,
  `blacklistReg`, `whitelistReg`, `checkedTerms`) is `SvcState`; the
  cache object `checkedTerms` is an association list from hash values to
  booleans where assignment prepends (lookup takes the first hit, so a
  prepended entry overrides).

* The `$log.info` side channel is modelled by a list of structured
  `LogEv` events emitted by each operation.

* `this.check` (lines 137-156) is `checkL`; the success handler of
  `$http.get` (lines 103-113) is `loadSuccess`; the error handler
  (lines 114-116) is `loadError`.  JS falsiness of the checked value
  (`!value`, line 138) is `falsy`: undefined/absent or the empty string.
-/

/-- A JS string: list of characters. -/
abbrev Str := List Char

/-- UTF-16 code units of a string, as seen by JS `charCodeAt`:
BMP characters give their code point, others a surrogate pair. -/
def utf16Units (s : Str) : List Nat :=
  s.flatMap (fun c =>
    if c.toNat < 65536 then [c.toNat]
    else [55296 + (c.toNat - 65536) / 1024, 56320 + (c.toNat - 65536) % 1024])

/-- JS ToInt32: wrap a mathematical integer into the signed 32-bit range. -/
def toInt32 (n : Int) : Int := (n + 2147483648) % 4294967296 - 2147483648

/-- One loop iteration of `String.prototype.hashCode` (lines 54-55):
`hash = ((hash << 5) - hash) + character; hash = hash & hash`.
Here `hash << 5` is ToInt32(hash * 32) and `hash & hash` is ToInt32 of the
step result. -/
def srcHashStep (hash : Int) (character : Nat) : Int :=
  toInt32 (toInt32 (hash * 32) - hash + (character : Int))

/-- Model of `String.prototype.hashCode` from blacklist.js lines 49-58:
fold `srcHashStep` left to right over the UTF-16 code units, seeded at 0,
with an early return 0 for the empty string. -/
def hashCode (s : Str) : Int :=
  let units := utf16Units s
  if units.length = 0 then 0
  else units.foldl srcHashStep 0

/-- Case-insensitive rendering of a string, modelling the regex `"i"` flag. -/
def lowerStr (s : Str) : Str := s.map Char.toLower

/-- Regex search: does `pat` occur in `text` starting at some position?
Mirrors how `exec` scans every start position. -/
def occursAt (pat text : Str) : Bool :=
  (List.range (text.length + 1)).any (fun i => pat.isPrefixOf (text.drop i))

/-- Matching semantics of `new RegExp("(?:" + frags.join("|") + ")", "i")`
applied via `.exec(text) !== null` (blacklist.js lines 109-110, 147, 149),
for fragments free of regex metacharacters.  An empty fragment list joins
to the pattern `"(?:)"`, which matches every string — same behaviour as the
initial `new RegExp("", "i")` of lines 86 and 96. -/
def regMatches (frags : List Str) (text : Str) : Bool :=
  if frags.isEmpty then true
  else frags.any (fun f => occursAt (lowerStr f) (lowerStr text))

/-- Structured view of the `$log.info` side channel. -/
inductive LogEv where
  /-- Event for the message Returning old cached value (line 142). -/
  | cacheHit : LogEv
  /-- The classification message of line 153, carrying the checked value
  and the computed result. -/
  | classified : Str → Bool → LogEv
  /-- The missing-file message of line 115. -/
  | loadFail : LogEv
deriving DecidableEq

/-- The module-local state of the BlackListValidator service.
The two `Reg` fields hold the fragment list each regex was compiled from;
the initial regexes `new RegExp("", "i")` behave exactly like the compile
of an empty fragment list, so they are modelled as `[]`. -/
structure SvcState where
  blacklist : List Str
  whitelist : List Str
  blacklistReg : List Str
  whitelistReg : List Str
  checkedTerms : List (Int × Bool)
deriving DecidableEq

/-- State at service construction (blacklist.js lines 81-96, 127). -/
def initState : SvcState :=
  { blacklist := [], whitelist := [], blacklistReg := [], whitelistReg := [],
    checkedTerms := [] }

/-- The `{blacklist: [], whitelist: []}` record fetched from
`data/blacklist.json`; either field may be absent (`res.blacklist || []`). -/
structure LoadRes where
  blacklist : Option (List Str)
  whitelist : Option (List Str)

/-- Success handler of `$http.get` (blacklist.js lines 103-113): concat
the fetched lists onto the existing ones, recompile both regexes from the
accumulated lists, reset `checkedTerms` to the empty object. -/
def loadSuccess (σ : SvcState) (res : LoadRes) : SvcState :=
  let bl := σ.blacklist ++ res.blacklist.getD []
  let wl := σ.whitelist ++ res.whitelist.getD []
  { blacklist := bl, whitelist := wl, blacklistReg := bl, whitelistReg := wl,
    checkedTerms := [] }

/-- Error handler of `$http.get` (blacklist.js lines 114-116): only logs. -/
def loadError (σ : SvcState) : SvcState × List LogEv :=
  (σ, [LogEv.loadFail])

/-- JS falsiness of the checked value (`!value`, line 138): absent
(undefined) or the empty string. -/
def falsy : Option Str → Bool
  | none => true
  | some s => s.isEmpty

/-- Model of `this.check` (blacklist.js lines 137-156).  Returns the
verdict, the updated state, and the log events emitted. -/
def checkL (σ : SvcState) (value : Option Str) : Bool × SvcState × List LogEv :=
  if falsy value || σ.blacklist.length == 0 then (true, σ, [])
  else
    let v := value.getD []
    match List.lookup (hashCode v) σ.checkedTerms with
    | some old => (old, σ, [LogEv.cacheHit])
    | none =>
      let blacklisted := regMatches σ.blacklistReg v
      let result := if blacklisted then regMatches σ.whitelistReg v else true
      (result,
       { σ with checkedTerms := (hashCode v, result) :: σ.checkedTerms },
       [LogEv.classified v result])

/-- External events the service reacts to. -/
inductive Event where
  | loadOk : LoadRes → Event
  | loadErr : Event
  | checkEv : Option Str → Event

/-- One event applied to the state (log output discarded). -/
def stepState (σ : SvcState) : Event → SvcState
  | Event.loadOk res => loadSuccess σ res
  | Event.loadErr => (loadError σ).1
  | Event.checkEv v => (checkL σ v).2.1

/-- State reached from `σ` after a sequence of events. -/
def runEvents (σ : SvcState) (es : List Event) : SvcState :=
  es.foldl stepState σ

/-- Convert a Lean string literal to the model type. -/
def str (s : String) : Str := s.data

/-- Concrete load result of the spec scenario: blacklist badword, empty
whitelist. -/
def resBadword : LoadRes := { blacklist := some [str "badword"], whitelist := some [] }

/-- Concrete load result with blacklist bad and whitelist badass. -/
def resBad : LoadRes := { blacklist := some [str "bad"], whitelist := some [str "badass"] }

/-- Service state after loading `resBad` into the fresh service. -/
def stateBad : SvcState := loadSuccess initState resBad

/-- Concrete load result whose whitelist field is absent. -/
def resNoWhitelist : LoadRes := { blacklist := some [str "badword"], whitelist := none }

/-- Rolling hash step exactly as the specification words it: the step is
`((hash << 5) - hash) + charCode` truncated to 32 bits, where `hash << 5`
is multiplication by 32.  Used only to compare against `hashCode`, which
is translated from the source. -/
def specHashStep (hash : Int) (charCode : Nat) : Int :=
  toInt32 (hash * 32 - hash + (charCode : Int))

/-- Collapsing an inner ToInt32 does not change the final ToInt32. -/
theorem toInt32_congr (x y c : Int) :
    toInt32 (toInt32 x - y + c) = toInt32 (x - y + c) := by
  unfold toInt32
  omega

/-- The fold of the source hash step agrees with the fold of the
spec-worded hash step from any seed. -/
theorem foldl_hash_eq (l : List Nat) (a : Int) :
    l.foldl srcHashStep a = l.foldl specHashStep a := by
  induction l generalizing a with
  | nil => rfl
  | cons c cs ih =>
    simp only [List.foldl_cons]
    rw [show srcHashStep a c = specHashStep a c from toInt32_congr (a * 32) a (c : Int)]
    exact ih (specHashStep a c)

/-- The spec-worded fold stays in the signed 32-bit range. -/
theorem foldl_hash_range (l : List Nat) (a : Int)
    (h1 : -2147483648 ≤ a) (h2 : a < 2147483648) :
    -2147483648 ≤ l.foldl specHashStep a ∧ l.foldl specHashStep a < 2147483648 := by
  induction l generalizing a with
  | nil => exact ⟨h1, h2⟩
  | cons c cs ih =>
    simp only [List.foldl_cons]
    apply ih
    · unfold specHashStep toInt32; omega
    · unfold specHashStep toInt32; omega

/-- Claim C8: for every string S, hashCode(S) equals the 32-bit signed
rolling hash computed left to right over the UTF-16 code units of S with
step `hash = ((hash << 5) - hash) + charCode` truncated to 32 bits, seeded
at 0; the empty string hashes to 0; the result lies in the signed 32-bit
range. -/
theorem C8_hashCode_rolling (s : Str) :
    hashCode s = (utf16Units s).foldl specHashStep 0 ∧
    hashCode [] = 0 ∧
    -2147483648 ≤ hashCode s ∧ hashCode s < 2147483648 := by
  have hmain : ∀ u : Str, hashCode u = (utf16Units u).foldl specHashStep 0 := by
    intro u
    simp only [hashCode]
    cases hu : utf16Units u with
    | nil => simp
    | cons c cs =>
      rw [if_neg (by simp)]
      exact foldl_hash_eq (c :: cs) 0
  refine ⟨hmain s, rfl, ?_, ?_⟩
  · rw [hmain s]
    exact (foldl_hash_range (utf16Units s) 0 (by norm_num) (by norm_num)).1
  · rw [hmain s]
    exact (foldl_hash_range (utf16Units s) 0 (by norm_num) (by norm_num)).2

/-- Claim C2: the spec demands that a pattern compiled from an empty
fragment sequence match nothing, but the code compiles the empty fragment
list to the regex `(?:)`, which matches every string T. -/
theorem C2_empty_pattern_matches_all (t : Str) : regMatches [] t = true := rfl

/-- Claim C1: the spec scenario expects check of a text containing the
blacklist fragment badword (with empty whitelist) to be false, but the
code returns true for it, because the whitelist regex compiled from zero
fragments matches every string and so the whitelist override always fires;
the clean text also returns true as the spec expects. -/
theorem C1_code_returns_true :
    (checkL (loadSuccess initState resBadword) (some (str "this is a badword here"))).1 = true ∧
    (checkL (loadSuccess initState resBadword) (some (str "clean text"))).1 = true := by
  decide

/-- Claim C9: a failed list load leaves the whole service state (lists,
compiled patterns, cache) unchanged, emits only a log message, and check
behaves afterwards exactly as before the failure. -/
theorem C9_load_failure (σ : SvcState) :
    (loadError σ).1 = σ ∧ (loadError σ).2 = [LogEv.loadFail] ∧
    ∀ v : Option Str, checkL (loadError σ).1 v = checkL σ v :=
  ⟨rfl, rfl, fun _ => rfl⟩

/-- Claim C4: when the checked value is absent or empty, or the blacklist
is empty, check returns true immediately, leaves the state (in particular
the result cache) untouched, and logs nothing. -/
theorem C4_short_circuit (σ : SvcState) (v : Option Str)
    (h : falsy v = true ∨ σ.blacklist = []) :
    checkL σ v = (true, σ, []) := by
  have hcond : (falsy v || σ.blacklist.length == 0) = true := by
    rcases h with h | h
    · simp [h]
    · simp [h]
  unfold checkL
  rw [if_pos hcond]

/-- Witness for C4 at the fresh service and an absent value. -/
theorem C4_short_circuit_witness :
    (falsy none = true ∨ initState.blacklist = []) ∧
    checkL initState none = (true, initState, []) :=
  ⟨Or.inl rfl, C4_short_circuit initState none (Or.inl rfl)⟩

/-- Claim C3: for a non-empty text with a non-empty blacklist, no cache
entry for its hash, and regexes compiled from the current lists, check
returns true when no blacklist fragment occurs case-insensitively in the
text, and otherwise returns true exactly when the whitelist pattern
matches the text. -/
theorem C3_fresh_check (σ : SvcState) (t : Str)
    (ht : t ≠ []) (hbl : σ.blacklist ≠ [])
    (hbr : σ.blacklistReg = σ.blacklist) (hwr : σ.whitelistReg = σ.whitelist)
    (hc : List.lookup (hashCode t) σ.checkedTerms = none) :
    (σ.blacklist.any (fun f => occursAt (lowerStr f) (lowerStr t)) = false →
      (checkL σ (some t)).1 = true) ∧
    (σ.blacklist.any (fun f => occursAt (lowerStr f) (lowerStr t)) = true →
      (checkL σ (some t)).1 = regMatches σ.whitelist t) := by
  have hfalsy : falsy (some t) = false := by
    cases t with
    | nil => exact absurd rfl ht
    | cons c cs => rfl
  have hlen : (σ.blacklist.length == 0) = false := by
    cases hb : σ.blacklist with
    | nil => exact absurd hb hbl
    | cons x xs => rfl
  have hres : (checkL σ (some t)).1 =
      (if regMatches σ.blacklist t then regMatches σ.whitelist t else true) := by
    simp [checkL, hfalsy, hlen, hc, hbr, hwr]
  have hnonempty : σ.blacklist.isEmpty = false := by
    cases hb : σ.blacklist with
    | nil => exact absurd hb hbl
    | cons x xs => rfl
  have hrm : regMatches σ.blacklist t
      = σ.blacklist.any (fun f => occursAt (lowerStr f) (lowerStr t)) := by
    unfold regMatches
    rw [hnonempty]
    rfl
  constructor
  · intro hany
    rw [hres, hrm, hany]
    rfl
  · intro hany
    rw [hres, hrm, hany]
    rfl

/-- Witness for C3 at blacklist bad, whitelist badass, text that is bad:
the blacklist matches and the verdict equals the whitelist match (false). -/
theorem C3_fresh_check_witness :
    str "that is bad" ≠ [] ∧ stateBad.blacklist ≠ [] ∧
    stateBad.blacklistReg = stateBad.blacklist ∧
    stateBad.whitelistReg = stateBad.whitelist ∧
    List.lookup (hashCode (str "that is bad")) stateBad.checkedTerms = none ∧
    (stateBad.blacklist.any
        (fun f => occursAt (lowerStr f) (lowerStr (str "that is bad"))) = true →
      (checkL stateBad (some (str "that is bad"))).1
        = regMatches stateBad.whitelist (str "that is bad")) :=
  ⟨by decide, by decide, by decide, by decide, by decide,
   (C3_fresh_check stateBad (str "that is bad") (by decide) (by decide) (by decide)
     (by decide) (by decide)).2⟩

/-- Claim C10: after a successful load leaving the blacklist non-empty and
the whitelist empty (absent or empty field on top of an empty whitelist),
check returns true for every non-empty text, because the whitelist regex
compiled from zero fragments matches every string. -/
theorem C10_empty_whitelist_always_valid (σ : SvcState) (res : LoadRes) (t : Str)
    (hbl : (loadSuccess σ res).blacklist ≠ [])
    (hw : σ.whitelist = [])
    (hres : res.whitelist = none ∨ res.whitelist = some [])
    (ht : t ≠ []) :
    (checkL (loadSuccess σ res) (some t)).1 = true := by
  have hwl : (loadSuccess σ res).whitelistReg = [] := by
    show σ.whitelist ++ res.whitelist.getD [] = []
    rcases hres with h | h <;> simp [h, hw]
  have hfalsy : falsy (some t) = false := by
    cases t with
    | nil => exact absurd rfl ht
    | cons c cs => rfl
  have hlen : ((loadSuccess σ res).blacklist.length == 0) = false := by
    cases hb : (loadSuccess σ res).blacklist with
    | nil => exact absurd hb hbl
    | cons x xs => rfl
  have hcache : List.lookup (hashCode t) (loadSuccess σ res).checkedTerms = none := rfl
  simp [checkL, hfalsy, hlen, hcache, hwl, regMatches]

/-- Witness for C10: blacklist badword loaded with an absent whitelist
field, text containing the blacklist fragment, verdict still true. -/
theorem C10_empty_whitelist_always_valid_witness :
    (loadSuccess initState resNoWhitelist).blacklist ≠ [] ∧
    initState.whitelist = [] ∧
    (resNoWhitelist.whitelist = none ∨ resNoWhitelist.whitelist = some []) ∧
    str "this is a badword here" ≠ [] ∧
    (checkL (loadSuccess initState resNoWhitelist)
      (some (str "this is a badword here"))).1 = true :=
  ⟨by decide, rfl, Or.inl rfl, by decide,
   C10_empty_whitelist_always_valid initState resNoWhitelist (str "this is a badword here")
     (by decide) rfl (Or.inl rfl) (by decide)⟩

/-- The check operation never changes the word lists or the compiled
regexes, only the cache. -/
theorem checkL_preserves_lists (σ : SvcState) (v : Option Str) :
    (checkL σ v).2.1.blacklist = σ.blacklist ∧
    (checkL σ v).2.1.whitelist = σ.whitelist ∧
    (checkL σ v).2.1.blacklistReg = σ.blacklistReg ∧
    (checkL σ v).2.1.whitelistReg = σ.whitelistReg := by
  unfold checkL
  split
  · exact ⟨rfl, rfl, rfl, rfl⟩
  · rcases hl : List.lookup (hashCode (v.getD [])) σ.checkedTerms with _ | old <;>
      simp [hl]

/-- Claim C5: a successful load appends the fetched fragments (absent
fields as empty) to the existing lists and recompiles both regexes from
the accumulated lists; along every event history of the service the
compiled patterns remain the compile of the current word lists. -/
theorem C5_load_appends_and_recompiles :
    (∀ (σ : SvcState) (res : LoadRes),
      (loadSuccess σ res).blacklist = σ.blacklist ++ res.blacklist.getD [] ∧
      (loadSuccess σ res).whitelist = σ.whitelist ++ res.whitelist.getD [] ∧
      (loadSuccess σ res).blacklistReg = (loadSuccess σ res).blacklist ∧
      (loadSuccess σ res).whitelistReg = (loadSuccess σ res).whitelist) ∧
    (∀ es : List Event,
      (runEvents initState es).blacklistReg = (runEvents initState es).blacklist ∧
      (runEvents initState es).whitelistReg = (runEvents initState es).whitelist) := by
  constructor
  · exact fun σ res => ⟨rfl, rfl, rfl, rfl⟩
  · have key : ∀ (es : List Event) (σ : SvcState),
        σ.blacklistReg = σ.blacklist → σ.whitelistReg = σ.whitelist →
        (runEvents σ es).blacklistReg = (runEvents σ es).blacklist ∧
        (runEvents σ es).whitelistReg = (runEvents σ es).whitelist := by
      intro es
      induction es with
      | nil => exact fun σ h1 h2 => ⟨h1, h2⟩
      | cons e es ih =>
        intro σ h1 h2
        apply ih (stepState σ e)
        · cases e with
          | loadOk res => rfl
          | loadErr => exact h1
          | checkEv v =>
            have h := checkL_preserves_lists σ v
            show (checkL σ v).2.1.blacklistReg = (checkL σ v).2.1.blacklist
            rw [h.2.2.1, h.1, h1]
        · cases e with
          | loadOk res => rfl
          | loadErr => exact h2
          | checkEv v =>
            have h := checkL_preserves_lists σ v
            show (checkL σ v).2.1.whitelistReg = (checkL σ v).2.1.whitelist
            rw [h.2.2.2, h.2.1, h2]
    exact fun es => key es initState rfl rfl

/-- Claim C6: a successful load resets the cache to empty, and everything
the service does after the load — including the verdict of every later
check — is independent of whatever was cached before the load, so a
pre-load verdict is never returned later. -/
theorem C6_replace_clears_cache :
    (∀ (σ : SvcState) (res : LoadRes), (loadSuccess σ res).checkedTerms = []) ∧
    (∀ (σ : SvcState) (c : List (Int × Bool)) (res : LoadRes) (es : List Event),
      runEvents (loadSuccess σ res) es =
        runEvents (loadSuccess { σ with checkedTerms := c } res) es) ∧
    (∀ (σ : SvcState) (c : List (Int × Bool)) (res : LoadRes) (es : List Event)
        (v : Option Str),
      (checkL (runEvents (loadSuccess σ res) es) v).1 =
        (checkL (runEvents (loadSuccess { σ with checkedTerms := c } res) es) v).1) :=
  ⟨fun _ _ => rfl, fun _ _ _ _ => rfl, fun _ _ _ _ _ => rfl⟩

/-- Short-circuit branch of check (line 138). -/
theorem checkL_true_branch (σ : SvcState) (v : Option Str)
    (h : (falsy v || σ.blacklist.length == 0) = true) :
    checkL σ v = (true, σ, []) := by
  unfold checkL
  rw [if_pos h]

/-- Cache-hit branch of check (lines 140-144). -/
theorem checkL_cache_hit (σ : SvcState) (t : Str) (old : Bool)
    (h : (falsy (some t) || σ.blacklist.length == 0) = false)
    (hl : List.lookup (hashCode t) σ.checkedTerms = some old) :
    checkL σ (some t) = (old, σ, [LogEv.cacheHit]) := by
  unfold checkL
  rw [if_neg (by simp [h])]
  simp [hl]

/-- Fresh-computation branch of check (lines 145-155). -/
theorem checkL_fresh (σ : SvcState) (t : Str)
    (h : (falsy (some t) || σ.blacklist.length == 0) = false)
    (hl : List.lookup (hashCode t) σ.checkedTerms = none) :
    checkL σ (some t) =
      ((if regMatches σ.blacklistReg t then regMatches σ.whitelistReg t else true),
       { σ with checkedTerms :=
          (hashCode t,
           if regMatches σ.blacklistReg t then regMatches σ.whitelistReg t else true)
            :: σ.checkedTerms },
       [LogEv.classified t
          (if regMatches σ.blacklistReg t then regMatches σ.whitelistReg t else true)]) := by
  unfold checkL
  rw [if_neg (by simp [h])]
  simp [hl]

/-- A second check of the same non-short-circuited text hits the cache:
it returns the first verdict, leaves the state unchanged, logs the
cache-hit message, and the cache holds the first verdict. -/
theorem checkL_second (σ : SvcState) (t : Str)
    (h : (falsy (some t) || σ.blacklist.length == 0) = false) :
    checkL (checkL σ (some t)).2.1 (some t) =
      ((checkL σ (some t)).1, (checkL σ (some t)).2.1, [LogEv.cacheHit]) ∧
    List.lookup (hashCode t) ((checkL σ (some t)).2.1).checkedTerms
      = some ((checkL σ (some t)).1) := by
  cases hl : List.lookup (hashCode t) σ.checkedTerms with
  | some old =>
    rw [checkL_cache_hit σ t old h hl]
    exact ⟨checkL_cache_hit σ t old h hl, hl⟩
  | none =>
    rw [checkL_fresh σ t h hl]
    refine ⟨checkL_cache_hit _ t _ h (by simp [List.lookup]), by simp [List.lookup]⟩

/-- Claim C7 counterexample: on the fresh service (empty blacklist) two
consecutive checks of the non-empty text hello both return true, but the
second call is answered by the short circuit rather than the result
cache: it emits no cache-hit log and the cache holds no entry at all
after the first call. -/
theorem C7_counterexample :
    (checkL initState (some (str "hello"))).1 = true ∧
    (checkL (checkL initState (some (str "hello"))).2.1 (some (str "hello"))).1 = true ∧
    (checkL (checkL initState (some (str "hello"))).2.1 (some (str "hello"))).2.2 = [] ∧
    (checkL initState (some (str "hello"))).2.1.checkedTerms = [] := by
  decide

/-- Claim C7 (amended): two consecutive checks of the same value with no
intervening load return the same verdict and the second call leaves the
state unchanged; when the text is non-empty and the blacklist non-empty
the second call is answered from the result cache — it logs the cache-hit
message and the cache holds the first verdict, whatever that verdict is. -/
theorem C7_check_idempotent :
    (∀ (σ : SvcState) (v : Option Str),
      (checkL (checkL σ v).2.1 v).1 = (checkL σ v).1 ∧
      (checkL (checkL σ v).2.1 v).2.1 = (checkL σ v).2.1) ∧
    (∀ (σ : SvcState) (t : Str), t ≠ [] → σ.blacklist ≠ [] →
      (checkL (checkL σ (some t)).2.1 (some t)).2.2 = [LogEv.cacheHit] ∧
      List.lookup (hashCode t) ((checkL σ (some t)).2.1).checkedTerms
        = some ((checkL σ (some t)).1)) := by
  have hcondition : ∀ (σ : SvcState) (t : Str), t ≠ [] → σ.blacklist ≠ [] →
      (falsy (some t) || σ.blacklist.length == 0) = false := by
    intro σ t ht hbl
    have hfalsy : falsy (some t) = false := by
      cases t with
      | nil => exact absurd rfl ht
      | cons c cs => rfl
    have hlen : (σ.blacklist.length == 0) = false := by
      cases hb : σ.blacklist with
      | nil => exact absurd hb hbl
      | cons x xs => rfl
    rw [hfalsy, hlen]
    rfl
  constructor
  · intro σ v
    by_cases hcond : (falsy v || σ.blacklist.length == 0) = true
    · simp [checkL_true_branch σ v hcond]
    · have h' : (falsy v || σ.blacklist.length == 0) = false := by
        cases hcv : (falsy v || σ.blacklist.length == 0) with
        | false => rfl
        | true => exact absurd hcv hcond
      cases v with
      | none => simp [falsy] at h'
      | some t =>
        have hs := checkL_second σ t h'
        rw [hs.1]
        exact ⟨rfl, rfl⟩
  · intro σ t ht hbl
    have hs := checkL_second σ t (hcondition σ t ht hbl)
    exact ⟨by rw [hs.1], hs.2⟩

/-- Witness for C7 at blacklist bad, whitelist badass, text that is bad:
the second check is served from the cache and the cached verdict is
false. -/
theorem C7_check_idempotent_witness :
    str "that is bad" ≠ [] ∧ stateBad.blacklist ≠ [] ∧
    ((checkL (checkL stateBad (some (str "that is bad"))).2.1
        (some (str "that is bad"))).2.2 = [LogEv.cacheHit] ∧
     List.lookup (hashCode (str "that is bad"))
        ((checkL stateBad (some (str "that is bad"))).2.1).checkedTerms
       = some ((checkL stateBad (some (str "that is bad"))).1)) :=
  ⟨by decide, by decide,
   C7_check_idempotent.2 stateBad (str "that is bad") (by decide) (by decide)⟩
